import Mathlib

/-!
Verification development for the Vinted listing web application
(single source file app.py).  The definitions below are a shallow
embedding of the core logic: the output validator
(validate_and_fix_listing), the credit-gated generation orchestrator
(the POST branch of the index route), and the promo code redemption
route (redeem_code).  Python integers are modelled as Int, Python
strings as Lean String / lists of characters, the database rows as
structures threaded explicitly through the functions.
-/

namespace VintedTool

/-! ## Character and string helpers

The Python code extracts fields with regular expressions of the shape
`Key:\s*(.*)` and post-processes with str.strip().  We model the ASCII
fragment of Python whitespace; `\s` and str.strip() both recognise
space, tab, newline, carriage return, form feed and vertical tab. -/

def isSpaceChar (c : Char) : Bool :=
  c = ' ' || c = '\t' || c = '\n' || c = '\r' || c = '\x0b' || c = '\x0c'

/-- Python str.strip(): drop whitespace from both ends. -/
def stripChars (s : List Char) : List Char :=
  ((s.dropWhile isSpaceChar).reverse.dropWhile isSpaceChar).reverse

/-- Leftmost occurrence search: re.search for a literal key.  Returns the
characters following the first occurrence of `key`, or none when `key`
does not occur.  This is the match position of `re.search(key + ..., s)`
for a literal key, since the trailing `\s*(.*)` part always matches. -/
def searchAfter (key : List Char) : List Char → Option (List Char)
  | [] => if key.isPrefixOf ([] : List Char) then some [] else none
  | c :: rest =>
      if key.isPrefixOf (c :: rest) then some ((c :: rest).drop key.length)
      else searchAfter key rest

/-- The regex atom `(.*)`: everything up to the next newline. -/
def takeLine (s : List Char) : List Char :=
  s.takeWhile (fun c => c ≠ '\n')

/-- Characters after the first newline, if any: used to model
re.split(r"Condition:.*?\n", raw, maxsplit=1), whose lazy `.*?` cannot
cross a newline, so the match region ends at the first newline after the
first occurrence of the literal. -/
def afterNewline : List Char → Option (List Char)
  | [] => none
  | c :: rest => if c = '\n' then some rest else afterNewline rest

/-- Field extraction `re.search(rf"{key}\s*(.*)", raw)` followed by
.strip() on group 1, with "" when there is no match.  The greedy `\s*`
skips all whitespace (newlines included) after the key, then `(.*)`
captures to the end of that line. -/
def fieldAfterKey (key : List Char) (raw : List Char) : List Char :=
  match searchAfter key raw with
  | none => []
  | some rest => stripChars (takeLine (rest.dropWhile isSpaceChar))

/-! ## Output validator (app.py, validate_and_fix_listing)

The Python function receives the raw model output, which may be None;
we model it as Option String.  Python's `if not raw_output` is true for
both None and the empty string. -/

def validate_and_fix_listing (rawOpt : Option String) : String × Bool :=
  match rawOpt with
  | none => ("Error generating full listing.", true)
  | some raw_output =>
    if raw_output = "" then ("Error generating full listing.", true)
    else
      let raw := raw_output.data
      let title0 := fieldAfterKey "Title:".data raw
      let brand := fieldAfterKey "Brand:".data raw
      let size := fieldAfterKey "Size:".data raw
      let cond := fieldAfterKey "Condition:".data raw
      let title := if title0 = [] then "Clothing Item".data else title0
      let fallback_used := decide (title0 = []) || decide (cond = [])
      let rebuilt :=
        "Title: ".data ++ title ++ "\n\nBrand: ".data ++ brand ++
          "\nSize: ".data ++ size ++ "\nCondition: ".data ++ cond ++ "\n".data
      let rebuilt :=
        match searchAfter "Flaws:".data raw with
        | none => rebuilt
        | some rest =>
            rebuilt ++ "Flaws: ".data ++
              stripChars (takeLine (rest.dropWhile isSpaceChar)) ++ "\n".data
      let rebuilt :=
        match searchAfter "Condition:".data raw with
        | none => rebuilt
        | some rest =>
            match afterNewline rest with
            | none => rebuilt
            | some desc => rebuilt ++ "\n".data ++ stripChars desc
      (String.mk (stripChars rebuilt), fallback_used)

/-! ## Account state and the generation orchestrator (app.py, index route)

The User row: credits (Integer, default 10), is_generating (Boolean),
is_admin (Boolean).  Admin accounts are the "exempt" accounts of the
spec: they never debit or refund credits.  The POST branch of the index
route is modelled as a function of the locked user row, the uploaded
image filenames and the outcome of the external call; it returns the
rendered listing message, the user state after the final commit, and
the list of Generation audit rows inserted. -/

structure UserState where
  credits : Int
  is_generating : Bool
  is_admin : Bool
  deriving DecidableEq

/-- The Generation audit row (fields the route writes). -/
structure GenerationRow where
  tokens_used : Option Nat
  status : String
  result : Option String
  error : Option String
  deriving DecidableEq

/-- Outcome of the external call in generate_listing: either the call
raises (any transport or service error), or it returns the message
content (possibly None) and a token usage metric. -/
inductive InvokeOutcome
  | failure (err : String)
  | success (raw : Option String) (tokens : Option Nat)
  deriving DecidableEq

inductive BeginOutcome
  | alreadyInProgress
  | insufficientCredits
  | ok
  deriving DecidableEq

def MAX_IMAGES : Nat := 5

/-- The TryBeginGeneration operation of the spec: the guard checks at
the top of the POST branch (is_generating, then credits for non-admin)
together with the mutation committed at the entry of the try block
(is_generating := true, and the debit for non-admin accounts).  Failure
paths return the row unchanged. -/
def tryBeginGeneration (u : UserState) : BeginOutcome × UserState :=
  if u.is_generating then (.alreadyInProgress, u)
  else if u.is_admin = false ∧ u.credits ≤ 0 then (.insufficientCredits, u)
  else (.ok, { u with is_generating := true,
                      credits := if u.is_admin then u.credits else u.credits - 1 })

/-- The check `if not images or images[0].filename == ""`. -/
def imagesEmptyCheck (images : List String) : Bool :=
  match images with
  | [] => true
  | f :: _ => f = ""

/-- The POST branch of the index route.  The image-count checks sit
between the guard checks and the debit in the source; they return the
unmutated row, so we thread the original `u` through those branches.
On an exception from the external call the route rolls back (nothing
uncommitted), refunds non-admin accounts, and writes no Generation row;
on success it refunds non-admin accounts when the validator fell back,
and inserts one Generation row with status degraded or completed.  The
finally block sets is_generating := false on every path that entered
the try block. -/
def index_post (u : UserState) (images : List String) (inv : InvokeOutcome) :
    String × UserState × List GenerationRow :=
  match tryBeginGeneration u with
  | (.alreadyInProgress, u0) => ("Generation already in progress.", u0, [])
  | (.insufficientCredits, u0) => ("You have no credits remaining.", u0, [])
  | (.ok, u1) =>
    if imagesEmptyCheck images then ("Please upload at least one image.", u, [])
    else if images.length > MAX_IMAGES then
      ("Maximum " ++ toString MAX_IMAGES ++ " images allowed.", u, [])
    else
      match inv with
      | .failure _err =>
          let u2 : UserState :=
            { u1 with credits := if u1.is_admin then u1.credits else u1.credits + 1 }
          ("Error generating listing. Please try again.",
            { u2 with is_generating := false }, [])
      | .success raw tokens =>
          let vr := validate_and_fix_listing raw
          let u2 : UserState :=
            if vr.2 && !u1.is_admin then { u1 with credits := u1.credits + 1 } else u1
          (vr.1, { u2 with is_generating := false },
            [{ tokens_used := tokens,
               status := if vr.2 then "degraded" else "completed",
               result := some vr.1,
               error := none }])

/-! ## Promo code redemption (app.py, redeem_code route) -/

structure PromoCode where
  id : Nat
  code : String
  credits : Int
  is_active : Bool
  max_uses : Option Int
  uses_count : Int
  deriving DecidableEq

/-- The state the redeem route touches: the promo table, the
PromoRedemption table as (user_id, promo_id) pairs, and the balance of
the current user. -/
structure RedeemState where
  promos : List PromoCode
  redemptions : List (Nat × Nat)
  user_credits : Int
  deriving DecidableEq

/-- Python str.upper() restricted to ASCII letters. -/
def upperChar (c : Char) : Char :=
  if 'a' ≤ c ∧ c ≤ 'z' then Char.ofNat (c.toNat - 32) else c

/-- The normalisation `request.form.get("promo_code").strip().upper()`. -/
def normalizeCode (s : String) : String :=
  String.mk ((stripChars s.data).map upperChar)

/-- PromoCode.query.filter_by(code=code_input).first() -/
def findPromo (promos : List PromoCode) (code : String) : Option PromoCode :=
  promos.find? (fun p => p.code == code)

/-- The condition `promo.max_uses and promo.uses_count >= promo.max_uses`:
Python treats both None and 0 as falsy, so a max_uses of 0 disables the
limit check entirely. -/
def limitReached (p : PromoCode) : Bool :=
  match p.max_uses with
  | none => false
  | some m => m != 0 && decide (m ≤ p.uses_count)

/-- The POST /redeem route for the current user (identified by userId),
returning the rendered message and the state after the commit. -/
def redeem_code (st : RedeemState) (userId : Nat) (codeForm : String) :
    String × RedeemState :=
  let code_input := normalizeCode codeForm
  match findPromo st.promos code_input with
  | none => ("Invalid or inactive code.", st)
  | some promo =>
    if promo.is_active = false then ("Invalid or inactive code.", st)
    else if limitReached promo then
      ("This code has reached its usage limit.", st)
    else if st.redemptions.contains (userId, promo.id) then
      ("You have already used this code.", st)
    else
      ("Promo applied! " ++ toString promo.credits ++ " credits added.",
        { promos := st.promos.map (fun p =>
            if p.id == promo.id then { p with uses_count := p.uses_count + 1 } else p),
          redemptions := st.redemptions ++ [(userId, promo.id)],
          user_credits := st.user_credits + promo.credits })

/-! ## Helper lemmas -/

/-- A TryBeginGeneration success implies the in-progress guard was clear. -/
lemma tryBegin_ok_not_generating (u : UserState)
    (h : (tryBeginGeneration u).1 = BeginOutcome.ok) : u.is_generating = false := by
  by_cases hg : u.is_generating
  · simp [tryBeginGeneration, hg] at h
  · simpa using hg

/-! ## Claims -/

/-- C1: TryBeginGeneration contract.  When is_generating is already true
the call reports the in-progress failure and leaves the row unchanged;
when the account is not admin and has 0 credits it reports the
insufficient-credits failure and leaves the row unchanged; otherwise it
sets is_generating := true and debits exactly 1 credit precisely for
non-admin accounts, both in the same committed row. -/
theorem C1_tryBeginGeneration_contract (u : UserState) :
    (u.is_generating = true → tryBeginGeneration u = (.alreadyInProgress, u)) ∧
    (u.is_generating = false → u.is_admin = false → u.credits = 0 →
      tryBeginGeneration u = (.insufficientCredits, u)) ∧
    (u.is_generating = false → (u.is_admin = true ∨ 0 < u.credits) →
      tryBeginGeneration u =
        (.ok, { u with is_generating := true,
                       credits := if u.is_admin then u.credits else u.credits - 1 })) := by
  refine ⟨?_, ?_, ?_⟩
  · intro h; simp [tryBeginGeneration, h]
  · intro h1 h2 h3; simp [tryBeginGeneration, h1, h2, h3]
  · intro h1 h2
    have hc : ¬(u.is_admin = false ∧ u.credits ≤ 0) := by
      rintro ⟨ha, hle⟩
      rcases h2 with h | h
      · rw [h] at ha; cases ha
      · omega
    simp [tryBeginGeneration, h1, hc]

/-- C1 witness: concrete instances of the three branches. -/
theorem C1_witness :
    tryBeginGeneration ⟨4, true, false⟩ = (.alreadyInProgress, ⟨4, true, false⟩) ∧
    tryBeginGeneration ⟨0, false, false⟩ = (.insufficientCredits, ⟨0, false, false⟩) ∧
    tryBeginGeneration ⟨4, false, false⟩ = (.ok, ⟨3, true, false⟩) := by
  refine ⟨(C1_tryBeginGeneration_contract ⟨4, true, false⟩).1 rfl, ?_, ?_⟩
  · exact (C1_tryBeginGeneration_contract ⟨0, false, false⟩).2.1 rfl rfl rfl
  · exact (C1_tryBeginGeneration_contract ⟨4, false, false⟩).2.2 rfl (Or.inr (by decide))

/-- C4: guaranteed release.  On every exit path of an attempt whose
TryBeginGeneration step succeeded — normal completion, degraded result,
or an exception raised by the external call — the finally block has run,
so is_generating is false in the final committed state. -/
theorem C4_guaranteed_release (u : UserState) (images : List String) (inv : InvokeOutcome)
    (h : (tryBeginGeneration u).1 = BeginOutcome.ok) :
    (index_post u images inv).2.1.is_generating = false := by
  have hg := tryBegin_ok_not_generating u h
  rcases htb : tryBeginGeneration u with ⟨o, u1⟩
  rw [htb] at h
  simp only at h
  subst h
  simp only [index_post, htb]
  by_cases h1 : imagesEmptyCheck images
  · simp [h1, hg]
  · by_cases h2 : images.length > MAX_IMAGES
    · simp [h1, h2, hg]
    · cases inv with
      | failure e => simp [h1, h2]
      | success raw tok => simp [h1, h2]

/-- C4 witness: a failing invocation still ends with the flag released. -/
theorem C4_witness :
    (index_post ⟨1, false, false⟩ ["a"] (.failure "x")).2.1.is_generating = false :=
  C4_guaranteed_release ⟨1, false, false⟩ ["a"] (.failure "x") (by decide)

/-- C7: image-count validation precedes the debit.  Whenever the upload
has zero images or more than MAX_IMAGES images, the request is answered
with a rejection message, the user row is completely unchanged (credits
and is_generating included) and no audit row is written. -/
theorem C7_image_validation_pre_debit (u : UserState) (images : List String)
    (inv : InvokeOutcome)
    (h : images.length = 0 ∨ MAX_IMAGES < images.length) :
    (index_post u images inv).2.1 = u ∧ (index_post u images inv).2.2 = [] ∧
      ((index_post u images inv).1 = "Generation already in progress." ∨
       (index_post u images inv).1 = "You have no credits remaining." ∨
       (index_post u images inv).1 = "Please upload at least one image." ∨
       (index_post u images inv).1 = "Maximum 5 images allowed.") := by
  by_cases hg : u.is_generating
  · have hI : index_post u images inv = ("Generation already in progress.", u, []) := by
      simp [index_post, tryBeginGeneration, hg]
    rw [hI]; exact ⟨rfl, rfl, Or.inl rfl⟩
  · by_cases hc : u.is_admin = false ∧ u.credits ≤ 0
    · have hI : index_post u images inv = ("You have no credits remaining.", u, []) := by
        simp [index_post, tryBeginGeneration, hg, hc]
      rw [hI]; exact ⟨rfl, rfl, Or.inr (Or.inl rfl)⟩
    · by_cases he : imagesEmptyCheck images
      · have hI : index_post u images inv = ("Please upload at least one image.", u, []) := by
          simp [index_post, tryBeginGeneration, hg, hc, he]
        rw [hI]; exact ⟨rfl, rfl, Or.inr (Or.inr (Or.inl rfl))⟩
      · have hlen : MAX_IMAGES < images.length := by
          rcases h with h0 | h5
          · rcases images with _ | ⟨f, rest⟩
            · simp [imagesEmptyCheck] at he
            · simp at h0
          · exact h5
        have hI : index_post u images inv =
            ("Maximum " ++ toString MAX_IMAGES ++ " images allowed.", u, []) := by
          simp [index_post, tryBeginGeneration, hg, hc, he, hlen]
        rw [hI]
        exact ⟨rfl, rfl, Or.inr (Or.inr (Or.inr rfl))⟩

/-- C7 witness: six images are rejected with the row untouched. -/
theorem C7_witness :
    (index_post ⟨2, false, false⟩ ["a", "b", "c", "d", "e", "f"] (.failure "x")).2.1 =
        ⟨2, false, false⟩ ∧
    (index_post ⟨2, false, false⟩ ["a", "b", "c", "d", "e", "f"] (.failure "x")).2.2 = [] := by
  have h := C7_image_validation_pre_debit ⟨2, false, false⟩ ["a", "b", "c", "d", "e", "f"]
    (.failure "x") (Or.inr (by decide))
  exact ⟨h.1, h.2.1⟩

/-- C2: net credit round-trip.  For an attempt that passed the guards
and the image checks: a non-admin account ends with exactly one credit
less when the invocation succeeds without validator fallback; it ends
with its balance unchanged when the invocation fails or the validator
fell back (the debit is cancelled by the refund); an admin (exempt)
account ends with its balance unchanged in every case. -/
theorem C2_net_credit_roundtrip (u : UserState) (images : List String)
    (inv : InvokeOutcome)
    (h1 : u.is_generating = false)
    (h2 : u.is_admin = true ∨ 0 < u.credits)
    (h3 : imagesEmptyCheck images = false)
    (h4 : images.length ≤ MAX_IMAGES) :
    ((u.is_admin = false ∧
        (∃ raw tok, inv = .success raw tok ∧ (validate_and_fix_listing raw).2 = false)) →
      (index_post u images inv).2.1.credits = u.credits - 1) ∧
    ((u.is_admin = false ∧
        ((∃ e, inv = .failure e) ∨
         (∃ raw tok, inv = .success raw tok ∧ (validate_and_fix_listing raw).2 = true))) →
      (index_post u images inv).2.1.credits = u.credits) ∧
    (u.is_admin = true → (index_post u images inv).2.1.credits = u.credits) := by
  have hc : ¬(u.is_admin = false ∧ u.credits ≤ 0) := by
    rintro ⟨ha, hle⟩
    rcases h2 with h | h
    · rw [h] at ha; cases ha
    · omega
  have hlen : ¬(images.length > MAX_IMAGES) := by omega
  refine ⟨?_, ?_, ?_⟩
  · rintro ⟨hadm, raw, tok, hinv, hfb⟩
    subst hinv
    have hpos : 0 < u.credits := by
      rcases h2 with h | h
      · rw [hadm] at h; cases h
      · exact h
    have hnotle : ¬(u.credits ≤ 0) := by omega
    simp [index_post, tryBeginGeneration, h1, h3, hlen, hadm, hnotle, hfb]
  · rintro ⟨hadm, hcase⟩
    have hpos : 0 < u.credits := by
      rcases h2 with h | h
      · rw [hadm] at h; cases h
      · exact h
    have hnotle : ¬(u.credits ≤ 0) := by omega
    rcases hcase with ⟨e, hinv⟩ | ⟨raw, tok, hinv, hfb⟩
    · subst hinv
      simp [index_post, tryBeginGeneration, h1, h3, hlen, hadm, hnotle]
    · subst hinv
      simp [index_post, tryBeginGeneration, h1, h3, hlen, hadm, hnotle, hfb]
  · intro hadm
    rcases inv with e | ⟨raw, tok⟩
    · simp [index_post, tryBeginGeneration, h1, hc, h3, hlen, hadm]
    · by_cases hfb : (validate_and_fix_listing raw).2
      · simp [index_post, tryBeginGeneration, h1, hc, h3, hlen, hadm, hfb]
      · simp [index_post, tryBeginGeneration, h1, hc, h3, hlen, hadm, hfb]

/-- C2 witness: with 3 credits, a completed attempt ends at 2 credits,
a failed attempt ends back at 3, and an admin attempt stays at 0. -/
theorem C2_witness :
    (index_post ⟨3, false, false⟩ ["a"]
        (.success (some "Title: Top\nBrand: Nike\nSize: M\nCondition: Good\nNice.") none)).2.1.credits = 2 ∧
    (index_post ⟨3, false, false⟩ ["a"] (.failure "x")).2.1.credits = 3 ∧
    (index_post ⟨0, false, true⟩ ["a"] (.failure "x")).2.1.credits = 0 := by
  refine ⟨?_, ?_, ?_⟩
  · exact (C2_net_credit_roundtrip ⟨3, false, false⟩ ["a"] _ rfl (Or.inr (by decide)) rfl
      (by decide)).1 ⟨rfl, _, _, rfl, by rfl⟩
  · exact (C2_net_credit_roundtrip ⟨3, false, false⟩ ["a"] _ rfl (Or.inr (by decide)) rfl
      (by decide)).2.1 ⟨rfl, Or.inl ⟨"x", rfl⟩⟩
  · exact (C2_net_credit_roundtrip ⟨0, false, true⟩ ["a"] _ rfl (Or.inl rfl) rfl
      (by decide)).2.2 rfl

/-- C3 counterexample: a concrete non-admin attempt whose invocation
fails writes no GenerationAttempt row at all, so in particular no row
with status failed and populated errorText exists, contradicting the
claim that every invocation failure is recorded as failed. -/
theorem C3_counterexample :
    (index_post ⟨5, false, false⟩ ["img"] (.failure "boom")).2.2 = [] ∧
    ¬∃ g ∈ (index_post ⟨5, false, false⟩ ["img"] (.failure "boom")).2.2,
        g.status = "failed" := by
  refine ⟨rfl, ?_⟩
  rintro ⟨g, hg, -⟩
  have h : (index_post ⟨5, false, false⟩ ["img"] (.failure "boom")).2.2 = ([] : List GenerationRow) := rfl
  rw [h] at hg
  exact (List.not_mem_nil g) hg

/-- C3 amended: on every invocation failure of an attempt that passed
the guards and image checks, the route refunds the debited credit
(unless exempt), so the final balance equals the starting balance, it
returns the fixed error message, releases the in-progress flag — but it
writes no GenerationAttempt audit row on this path. -/
theorem C3_failure_refund_no_audit (u : UserState) (images : List String) (e : String)
    (h1 : u.is_generating = false)
    (h2 : u.is_admin = true ∨ 0 < u.credits)
    (h3 : imagesEmptyCheck images = false)
    (h4 : images.length ≤ MAX_IMAGES) :
    index_post u images (.failure e) =
      ("Error generating listing. Please try again.",
        ⟨u.credits, false, u.is_admin⟩, []) := by
  have hc : ¬(u.is_admin = false ∧ u.credits ≤ 0) := by
    rintro ⟨ha, hle⟩
    rcases h2 with h | h
    · rw [h] at ha; cases ha
    · omega
  have hlen : ¬(images.length > MAX_IMAGES) := by omega
  by_cases hadm : u.is_admin
  · simp [index_post, tryBeginGeneration, h1, hc, h3, hlen, hadm]
  · have hadm' : u.is_admin = false := by simpa using hadm
    have hpos : 0 < u.credits := by
      rcases h2 with h | h
      · rw [hadm'] at h; cases h
      · exact h
    have hnotle : ¬(u.credits ≤ 0) := by omega
    simp [index_post, tryBeginGeneration, h1, h3, hlen, hadm', hnotle]

/-- C3 amended witness: concrete failing attempt. -/
theorem C3_witness :
    index_post ⟨5, false, false⟩ ["img"] (.failure "boom") =
      ("Error generating listing. Please try again.", ⟨5, false, false⟩, []) :=
  C3_failure_refund_no_audit ⟨5, false, false⟩ ["img"] "boom" rfl (Or.inr (by decide))
    rfl (by decide)

/-- Incrementing the use counter of one promo row commutes with the
code lookup, because the update preserves the code field. -/
lemma findPromo_map_update (promos : List PromoCode) (code : String) (pid : Nat) :
    findPromo (promos.map (fun p =>
        if p.id = pid then { p with uses_count := p.uses_count + 1 } else p)) code =
      Option.map (fun p =>
        if p.id = pid then { p with uses_count := p.uses_count + 1 } else p)
        (findPromo promos code) := by
  unfold findPromo
  rw [List.find?_map]
  have hpred : ((fun p : PromoCode => p.code == code) ∘ (fun p =>
      if p.id = pid then { p with uses_count := p.uses_count + 1 } else p)) =
      fun p : PromoCode => p.code == code := by
    funext q
    by_cases h : q.id = pid <;> simp [h]
  rw [hpred]

/-- C5 counterexample: an active promo code with max_uses = 0 and
uses_count = 0 satisfies "maxUses is set" and uses_count >= maxUses, yet
a redemption succeeds and raises uses_count to 1, above the cap — the
Python truthiness test skips the limit check when max_uses is 0. -/
theorem C5_counterexample :
    (redeem_code ⟨[⟨1, "SAVE", 5, true, some 0, 0⟩], [], 0⟩ 1 "SAVE").1 =
        "Promo applied! 5 credits added." ∧
    (redeem_code ⟨[⟨1, "SAVE", 5, true, some 0, 0⟩], [], 0⟩ 1 "SAVE").2.promos =
        [⟨1, "SAVE", 5, true, some 0, 1⟩] := ⟨rfl, rfl⟩

/-- C5 amended: for promo codes whose max_uses is set to a nonzero
value, the invariant uses_count <= max_uses is preserved by every
redeem call, and an attempt on an active code with uses_count >=
max_uses fails with the limit message without changing any state; a
code with max_uses = 0 is exempt from the check (treated as unlimited). -/
theorem C5_limit_invariant_nonzero (st : RedeemState) (uid : Nat) (c : String)
    (p : PromoCode) (m : Int)
    (hp : findPromo st.promos (normalizeCode c) = some p)
    (hm : p.max_uses = some m) (hm0 : m ≠ 0) :
    (p.is_active = true → m ≤ p.uses_count →
      redeem_code st uid c = ("This code has reached its usage limit.", st)) ∧
    (p.uses_count ≤ m →
      ∃ q, findPromo (redeem_code st uid c).2.promos (normalizeCode c) = some q ∧
        q.max_uses = some m ∧ q.uses_count ≤ m) := by
  constructor
  · intro hact hge
    have hlim : limitReached p = true := by
      simp [limitReached, hm, hm0, hge]
    simp [redeem_code, hp, hact, hlim]
  · intro hle
    by_cases hact : p.is_active = false
    · refine ⟨p, ?_, hm, hle⟩
      simp [redeem_code, hp, hact]
    · have hact' : p.is_active = true := by
        rcases hb : p.is_active
        · exact absurd hb hact
        · rfl
      by_cases hlim : limitReached p = true
      · refine ⟨p, ?_, hm, hle⟩
        simp [redeem_code, hp, hact', hlim]
      · by_cases hmem : (uid, p.id) ∈ st.redemptions
        · refine ⟨p, ?_, hm, hle⟩
          simp [redeem_code, hp, hact', hlim, hmem]
        · have hlt : p.uses_count < m := by
            have hnot : ¬(m ≤ p.uses_count) := by
              intro hge
              exact hlim (by simp [limitReached, hm, hm0, hge])
            omega
          refine ⟨{ p with uses_count := p.uses_count + 1 }, ?_, hm,
            by show p.uses_count + 1 ≤ m; omega⟩
          simp [redeem_code, hp, hact', hlim, hmem, findPromo_map_update]

/-- C5 amended witness: a code capped at 2 with one use left is pushed
to the cap and a code at its cap is rejected. -/
theorem C5_witness :
    redeem_code ⟨[⟨1, "SAVE", 5, true, some 1, 1⟩], [], 0⟩ 1 "SAVE" =
        ("This code has reached its usage limit.",
          ⟨[⟨1, "SAVE", 5, true, some 1, 1⟩], [], 0⟩) ∧
    ∃ q, findPromo (redeem_code ⟨[⟨1, "SAVE", 5, true, some 2, 1⟩], [], 0⟩ 1
          "SAVE").2.promos (normalizeCode "SAVE") = some q ∧
        q.max_uses = some 2 ∧ q.uses_count ≤ 2 := by
  constructor
  · exact (C5_limit_invariant_nonzero ⟨[⟨1, "SAVE", 5, true, some 1, 1⟩], [], 0⟩ 1 "SAVE"
      ⟨1, "SAVE", 5, true, some 1, 1⟩ 1 rfl rfl (by decide)).1 rfl (by decide)
  · exact (C5_limit_invariant_nonzero ⟨[⟨1, "SAVE", 5, true, some 2, 1⟩], [], 0⟩ 1 "SAVE"
      ⟨1, "SAVE", 5, true, some 2, 1⟩ 2 rfl rfl (by decide)).2 (by decide)

/-- C6 counterexample: the account already holds the redemption row for
the code, but because the code also sits at its usage cap the retry is
answered with the limit message, not the already-redeemed message the
claim promises. -/
theorem C6_counterexample :
    (redeem_code ⟨[⟨1, "SAVE", 5, true, some 1, 1⟩], [(7, 1)], 0⟩ 7 "SAVE").1 =
        "This code has reached its usage limit." ∧
    (redeem_code ⟨[⟨1, "SAVE", 5, true, some 1, 1⟩], [(7, 1)], 0⟩ 7 "SAVE").1 ≠
        "You have already used this code." := ⟨rfl, by decide⟩

/-- C6 amended: once a redemption row exists for the (account, promo)
pair, every later redeem call for that code leaves the state entirely
unchanged — no credits granted, no second row inserted, no counter
bump — and is answered with the already-redeemed message whenever the
code is active and below its usage limit (otherwise the earlier
inactive/limit failure is reported instead). -/
theorem C6_redeem_at_most_once (st : RedeemState) (uid : Nat) (c : String)
    (p : PromoCode)
    (hp : findPromo st.promos (normalizeCode c) = some p)
    (hmem : st.redemptions.contains (uid, p.id) = true) :
    (redeem_code st uid c).2 = st ∧
      (p.is_active = true → limitReached p = false →
        (redeem_code st uid c).1 = "You have already used this code.") := by
  have hmem' : (uid, p.id) ∈ st.redemptions := by simpa using hmem
  constructor
  · by_cases hact : p.is_active = false
    · simp [redeem_code, hp, hact]
    · have hact' : p.is_active = true := by
        rcases hb : p.is_active
        · exact absurd hb hact
        · rfl
      by_cases hlim : limitReached p = true
      · simp [redeem_code, hp, hact', hlim]
      · simp [redeem_code, hp, hact', hlim, hmem']
  · intro hact hlim
    simp [redeem_code, hp, hact, hlim, hmem']

/-- C6 amended witness: a second redemption by the same account changes
nothing and reports the already-redeemed message. -/
theorem C6_witness :
    (redeem_code ⟨[⟨1, "SAVE", 5, true, none, 1⟩], [(7, 1)], 5⟩ 7 "SAVE").2 =
        ⟨[⟨1, "SAVE", 5, true, none, 1⟩], [(7, 1)], 5⟩ ∧
    (redeem_code ⟨[⟨1, "SAVE", 5, true, none, 1⟩], [(7, 1)], 5⟩ 7 "SAVE").1 =
        "You have already used this code." := by
  have h := C6_redeem_at_most_once ⟨[⟨1, "SAVE", 5, true, none, 1⟩], [(7, 1)], 5⟩ 7 "SAVE"
    ⟨1, "SAVE", 5, true, none, 1⟩ rfl rfl
  exact ⟨h.1, h.2 rfl rfl⟩

/-- C9 counterexample: an absent code and an existing-but-inactive code
are answered with the identical message, so the two lookup failures are
not surfaced as distinct outcomes. -/
theorem C9_counterexample :
    (redeem_code ⟨[], [], 0⟩ 1 "SAVE").1 = "Invalid or inactive code." ∧
    (redeem_code ⟨[⟨1, "SAVE", 5, false, none, 0⟩], [], 0⟩ 1 "SAVE").1 =
        "Invalid or inactive code." ∧
    (redeem_code ⟨[], [], 0⟩ 1 "SAVE").1 =
      (redeem_code ⟨[⟨1, "SAVE", 5, false, none, 0⟩], [], 0⟩ 1 "SAVE").1 :=
  ⟨rfl, rfl, rfl⟩

/-- C9 amended: the lookup step collapses the two failure cases — when
no promo matches the normalized code, and when the matched promo is
inactive, the route answers with the same combined invalid-or-inactive
message and leaves the state unchanged. -/
theorem C9_lookup_single_message (st : RedeemState) (uid : Nat) (c : String) :
    (findPromo st.promos (normalizeCode c) = none →
      redeem_code st uid c = ("Invalid or inactive code.", st)) ∧
    (∀ p, findPromo st.promos (normalizeCode c) = some p → p.is_active = false →
      redeem_code st uid c = ("Invalid or inactive code.", st)) := by
  constructor
  · intro h
    simp [redeem_code, h]
  · intro p hp hact
    simp [redeem_code, hp, hact]

/-- C9 amended witness: both failure shapes at concrete states. -/
theorem C9_witness :
    redeem_code ⟨[], [], 3⟩ 1 "SAVE" = ("Invalid or inactive code.", ⟨[], [], 3⟩) ∧
    redeem_code ⟨[⟨1, "SAVE", 5, false, none, 0⟩], [], 3⟩ 1 "SAVE" =
      ("Invalid or inactive code.", ⟨[⟨1, "SAVE", 5, false, none, 0⟩], [], 3⟩) := by
  constructor
  · exact (C9_lookup_single_message ⟨[], [], 3⟩ 1 "SAVE").1 rfl
  · exact (C9_lookup_single_message ⟨[⟨1, "SAVE", 5, false, none, 0⟩], [], 3⟩ 1 "SAVE").2
      ⟨1, "SAVE", 5, false, none, 0⟩ rfl rfl

/-- C10: the usage limit is enforced only when max_uses is truthy.  For
an active code with max_uses = 0 the limit check is skipped entirely:
redemption by a fresh account succeeds and pushes uses_count one above
the cap of 0.  For a strictly positive max_uses the cap is enforced:
at uses_count >= max_uses the call fails with the limit message and
changes nothing. -/
theorem C10_zero_max_uses_unlimited :
    (∀ (st : RedeemState) (uid : Nat) (c : String) (p : PromoCode),
      findPromo st.promos (normalizeCode c) = some p →
      p.max_uses = some 0 → p.is_active = true →
      st.redemptions.contains (uid, p.id) = false →
      (redeem_code st uid c).1 =
          "Promo applied! " ++ toString p.credits ++ " credits added." ∧
      ∃ q, findPromo (redeem_code st uid c).2.promos (normalizeCode c) = some q ∧
        q.max_uses = some 0 ∧ q.uses_count = p.uses_count + 1) ∧
    (∀ (st : RedeemState) (uid : Nat) (c : String) (p : PromoCode) (m : Int),
      findPromo st.promos (normalizeCode c) = some p →
      p.max_uses = some m → 0 < m → m ≤ p.uses_count → p.is_active = true →
      redeem_code st uid c = ("This code has reached its usage limit.", st)) := by
  constructor
  · intro st uid c p hp hm hact hmem
    have hmem' : (uid, p.id) ∉ st.redemptions := by
      intro hin
      have : st.redemptions.contains (uid, p.id) = true := by simpa using hin
      rw [this] at hmem
      cases hmem
    have hlim : limitReached p = false := by
      simp [limitReached, hm]
    constructor
    · simp [redeem_code, hp, hact, hlim, hmem']
    · refine ⟨{ p with uses_count := p.uses_count + 1 }, ?_, hm, rfl⟩
      simp [redeem_code, hp, hact, hlim, hmem', findPromo_map_update]
  · intro st uid c p m hp hm hmpos hge hact
    have hlim : limitReached p = true := by
      have hm0 : m ≠ 0 := by omega
      simp [limitReached, hm, hm0, hge]
    simp [redeem_code, hp, hact, hlim]

/-- C10 witness: a zero-cap code behaves as unlimited at a concrete
state; a cap of 1 already used is enforced. -/
theorem C10_witness :
    (redeem_code ⟨[⟨1, "FREE", 3, true, some 0, 4⟩], [], 0⟩ 9 "FREE").1 =
        "Promo applied! 3 credits added." ∧
    redeem_code ⟨[⟨1, "CAP", 3, true, some 1, 1⟩], [], 0⟩ 9 "CAP" =
        ("This code has reached its usage limit.",
          ⟨[⟨1, "CAP", 3, true, some 1, 1⟩], [], 0⟩) := by
  constructor
  · exact (C10_zero_max_uses_unlimited.1 ⟨[⟨1, "FREE", 3, true, some 0, 4⟩], [], 0⟩ 9
      "FREE" ⟨1, "FREE", 3, true, some 0, 4⟩ rfl rfl rfl rfl).1
  · exact C10_zero_max_uses_unlimited.2 ⟨[⟨1, "CAP", 3, true, some 1, 1⟩], [], 0⟩ 9
      "CAP" ⟨1, "CAP", 3, true, some 1, 1⟩ 1 rfl rfl (by decide) (by decide) rfl

/-- dropWhile distributes over an append whose left part contains a
character the predicate rejects. -/
lemma dropWhile_append_left {p : Char → Bool} :
    ∀ (a b : List Char), (∃ c ∈ a, p c = false) →
      (a ++ b).dropWhile p = a.dropWhile p ++ b := by
  intro a
  induction a with
  | nil =>
    intro b h
    rcases h with ⟨c, hc, -⟩
    exact absurd hc (List.not_mem_nil c)
  | cons x xs ih =>
    intro b h
    by_cases hx : p x = true
    · rcases h with ⟨c, hc, hpc⟩
      have hcx : c ∈ xs := by
        rcases List.mem_cons.mp hc with rfl | hin
        · rw [hx] at hpc; cases hpc
        · exact hin
      rw [List.cons_append, List.dropWhile_cons_of_pos hx,
        List.dropWhile_cons_of_pos hx]
      exact ih b ⟨c, hcx, hpc⟩
    · rw [List.cons_append, List.dropWhile_cons_of_neg hx,
        List.dropWhile_cons_of_neg hx, List.cons_append]

/-- Stripping a rebuilt block that starts with the placeholder title
keeps that prefix intact, as long as the remainder holds at least one
non-whitespace character. -/
lemma stripChars_title_prefix (y : List Char)
    (hy : ∃ d ∈ y, isSpaceChar d = false) :
    ∃ t, stripChars ("Title: ".data ++ ("Clothing Item".data ++ y)) =
      "Title: Clothing Item".data ++ t := by
  have hx : "Title: ".data ++ ("Clothing Item".data ++ y) =
      "Title: Clothing Item".data ++ y := by
    rw [← List.append_assoc]
    have hcat : "Title: ".data ++ "Clothing Item".data =
        "Title: Clothing Item".data := by decide
    rw [hcat]
  refine ⟨(y.reverse.dropWhile isSpaceChar).reverse, ?_⟩
  rw [hx]
  unfold stripChars
  have h1 : ("Title: Clothing Item".data ++ y).dropWhile isSpaceChar =
      "Title: Clothing Item".data ++ y := by
    have hcons : "Title: Clothing Item".data ++ y =
        'T' :: ("itle: Clothing Item".data ++ y) := rfl
    rw [hcons, List.dropWhile_cons_of_neg (by decide)]
  rw [h1, List.reverse_append]
  have hrev : ∃ c ∈ y.reverse, isSpaceChar c = false := by
    rcases hy with ⟨d, hd, hds⟩
    exact ⟨d, List.mem_reverse.mpr hd, hds⟩
  rw [dropWhile_append_left y.reverse _ hrev, List.reverse_append,
    List.reverse_reverse]

/-- When the key is absent, or everything after its first occurrence is
whitespace, the extracted field is empty. -/
lemma fieldAfterKey_nil (key : List Char) (raw : List Char)
    (h : searchAfter key raw = none ∨
      ∃ rest, searchAfter key raw = some rest ∧ rest.all isSpaceChar = true) :
    fieldAfterKey key raw = [] := by
  rcases h with h | ⟨rest, h, hall⟩
  · simp [fieldAfterKey, h]
  · have hd : rest.dropWhile isSpaceChar = [] := by
      rw [List.dropWhile_eq_nil_iff]
      exact fun x hx => List.all_eq_true.mp hall x hx
    simp [fieldAfterKey, h, hd, takeLine, stripChars]

/-- C8 counterexample: the input has a Title line whose own content is
blank, yet the validator reports no fallback and invents no placeholder:
the `\s*` in the extraction regex crosses the newline and captures the
next line (Brand: Nike) as the title. -/
theorem C8_counterexample :
    (validate_and_fix_listing
        (some "Title:\nBrand: Nike\nSize: M\nCondition: Good\n")).2 = false ∧
    (validate_and_fix_listing
        (some "Title:\nBrand: Nike\nSize: M\nCondition: Good\n")).1 =
      "Title: Brand: Nike\n\nBrand: Nike\nSize: M\nCondition: Good" := ⟨rfl, rfl⟩

/-- C8 amended: the validator is total; a None or empty raw input yields
the fixed error message with fallback reported; when the Title label is
absent, or everything after its first occurrence is whitespace, the
placeholder title is substituted and the fallback is reported; when the
Condition label is absent, or everything after its first occurrence is
whitespace, the extracted condition is left blank (no placeholder) and
the fallback is reported.  (A blank labelled line followed by further
non-whitespace content is instead filled from the next line by the
whitespace-crossing extraction and reports no fallback.) -/
theorem C8_validator_fallbacks :
    validate_and_fix_listing none = ("Error generating full listing.", true) ∧
    validate_and_fix_listing (some "") = ("Error generating full listing.", true) ∧
    (∀ raw : String, raw ≠ "" →
      (searchAfter "Title:".data raw.data = none ∨
        ∃ rest, searchAfter "Title:".data raw.data = some rest ∧
          rest.all isSpaceChar = true) →
      (validate_and_fix_listing (some raw)).2 = true ∧
      ∃ t, ((validate_and_fix_listing (some raw)).1).data =
        "Title: Clothing Item".data ++ t) ∧
    (∀ raw : String, raw ≠ "" →
      (searchAfter "Condition:".data raw.data = none ∨
        ∃ rest, searchAfter "Condition:".data raw.data = some rest ∧
          rest.all isSpaceChar = true) →
      fieldAfterKey "Condition:".data raw.data = [] ∧
      (validate_and_fix_listing (some raw)).2 = true) := by
  refine ⟨rfl, rfl, ?_, ?_⟩
  · intro raw hraw ht
    have ht0 : fieldAfterKey "Title:".data raw.data = [] := fieldAfterKey_nil _ _ ht
    constructor
    · simp [validate_and_fix_listing, hraw, ht0]
    · rcases hF : searchAfter "Flaws:".data raw.data with _ | rest1
      · rcases hC : searchAfter "Condition:".data raw.data with _ | rest2
        · simp only [validate_and_fix_listing, if_neg hraw, ht0, hF, hC,
            if_pos rfl, List.append_assoc]
          exact stripChars_title_prefix _
            ⟨'B', List.mem_append_left _ (by decide), rfl⟩
        · rcases hN : afterNewline rest2 with _ | desc
          · simp only [validate_and_fix_listing, if_neg hraw, ht0, hF, hC, hN,
              if_pos rfl, List.append_assoc]
            exact stripChars_title_prefix _
              ⟨'B', List.mem_append_left _ (by decide), rfl⟩
          · simp only [validate_and_fix_listing, if_neg hraw, ht0, hF, hC, hN,
              if_pos rfl, List.append_assoc]
            exact stripChars_title_prefix _
              ⟨'B', List.mem_append_left _ (by decide), rfl⟩
      · rcases hC : searchAfter "Condition:".data raw.data with _ | rest2
        · simp only [validate_and_fix_listing, if_neg hraw, ht0, hF, hC,
            if_pos rfl, List.append_assoc]
          exact stripChars_title_prefix _
            ⟨'B', List.mem_append_left _ (by decide), rfl⟩
        · rcases hN : afterNewline rest2 with _ | desc
          · simp only [validate_and_fix_listing, if_neg hraw, ht0, hF, hC, hN,
              if_pos rfl, List.append_assoc]
            exact stripChars_title_prefix _
              ⟨'B', List.mem_append_left _ (by decide), rfl⟩
          · simp only [validate_and_fix_listing, if_neg hraw, ht0, hF, hC, hN,
              if_pos rfl, List.append_assoc]
            exact stripChars_title_prefix _
              ⟨'B', List.mem_append_left _ (by decide), rfl⟩
  · intro raw hraw hc
    have hc0 : fieldAfterKey "Condition:".data raw.data = [] := fieldAfterKey_nil _ _ hc
    exact ⟨hc0, by simp [validate_and_fix_listing, hraw, hc0]⟩

/-- C8 amended witness: concrete inputs for each clause. -/
theorem C8_witness :
    (validate_and_fix_listing (some "Brand: Nike")).2 = true ∧
    (∃ t, ((validate_and_fix_listing (some "Brand: Nike")).1).data =
      "Title: Clothing Item".data ++ t) ∧
    fieldAfterKey "Condition:".data "Title: Top".data = [] ∧
    (validate_and_fix_listing (some "Title: Top")).2 = true := by
  have h3 := (C8_validator_fallbacks.2.2.1 "Brand: Nike" (by decide) (Or.inl rfl))
  have h4 := (C8_validator_fallbacks.2.2.2 "Title: Top" (by decide) (Or.inl rfl))
  exact ⟨h3.1, h3.2, h4.1, h4.2⟩

end VintedTool
